import Mathlib

/-! cpm: a process supervisor.

A shallow embedding of the supervisor of `csm_config.go`, `csm_service.go` and
`csm_manager.go`, followed by theorems about it.

Conventions of the embedding.

* A Go `string` is a `String`; `strings.Trim(s, " ")` and `strings.Split(s, " ")`
  work on the ASCII space only, so they are modelled on the character list.
* A Go pointer that may be `nil` is an `Option`; a nil dereference, an index out
  of range and `log.Fatal` abort the run and are the `Fault` of `Except Fault`.
* An `error` is the text of its message.
* What the operating system answers (the file system, `os.StartProcess`,
  `Process.Signal`, `Process.Wait`, `syscall.Wait4`, the arrival of signals) is an
  explicit argument of the function that asks.
* What the supervisor does to the outside world is returned as a list of
  `Action`s, in the order in which it happens.
-/

namespace Csm

/-! ## csm_config.go -/

/-- Trimming of the cutset `" "`, as `strings.Trim(s, " ")` does it: the trailing
spaces are cut first, then the leading ones. -/
def Trim (s : String) : String :=
  ⟨(s.data.rdropWhile (fun c => c == ' ')).dropWhile (fun c => c == ' ')⟩

/-- Cutting a character list at every occurrence of `sep`; the pieces between two
adjacent separators are empty, and a list without separator is its only piece. -/
def splitChars (sep : Char) : List Char → List (List Char)
  | [] => [[]]
  | c :: cs =>
    if c = sep then [] :: splitChars sep cs
    else
      match splitChars sep cs with
      | [] => [[c]]
      | w :: ws => (c :: w) :: ws

/-- Splitting at the separator `" "`, as `strings.Split(s, " ")` does it. -/
def Split (s : String) : List String :=
  (splitChars ' ' s.data).map String.mk

/-- One entry of the `services` array of the configuration file. A field that
the file leaves out has the zero value of its Go type. -/
structure ServiceConfig where
  Name : String := ""
  StartCommand : String := ""
  WorkDirectory : String := ""
  StartupDelay : Nat := 0
  OnExit : String := ""
  MaxRestarts : Nat := 0
  StopSignalStr : String := ""
  Stdout : String := ""
  Stderr : String := ""
  CommandLine : List String := []
  StopSignal : Nat := 0
  ExpectedStdOut : String := ""
  ExpectedStdErr : String := ""
  ExpectedReturnValue : Int := 0
  deriving DecidableEq, Repr

/-- The configuration file. -/
structure Config where
  ShutdownTimeoutSec : Nat := 0
  Services : List ServiceConfig := []
  ExpectedReturnValue : Int := 0
  deriving DecidableEq, Repr

def OnExitTerminate : String := "terminate"
def OnExitTerminateIfError : String := "terminate_if_error"
def OnExitDoNothing : String := "do_nothing"
def OnExitRestart : String := "restart"
def DefaultOnExit : String := OnExitTerminate
def DefaultStopSignal : String := "SIGTERM"
def DefaultShutdownTimout : Nat := 3
def DefaultStartupDelay : Nat := 1000
def Stdout : String := "stdout"
def Stderr : String := "stderr"

/-- The signal numbers of package `syscall` that the signal table names. They
belong to the Go runtime of the target platform, so they are a parameter. -/
structure Syscall where
  SIGABRT : Nat
  SIGALRM : Nat
  SIGBUS : Nat
  SIGCHLD : Nat
  SIGCONT : Nat
  SIGEMT : Nat
  SIGFPE : Nat
  SIGHUP : Nat
  SIGILL : Nat
  SIGINFO : Nat
  SIGINT : Nat
  SIGIO : Nat
  SIGIOT : Nat
  SIGKILL : Nat
  SIGPIPE : Nat
  SIGPROF : Nat
  SIGQUIT : Nat
  SIGSEGV : Nat
  SIGSTOP : Nat
  SIGSYS : Nat
  SIGTERM : Nat
  SIGTRAP : Nat
  SIGTSTP : Nat
  SIGTTIN : Nat
  SIGTTOU : Nat
  SIGURG : Nat
  SIGUSR1 : Nat
  SIGUSR2 : Nat
  SIGVTALRM : Nat
  SIGWINCH : Nat
  SIGXCPU : Nat
  SIGXFSZ : Nat

/-- Signal numbers of the BSD family, the platforms whose package `syscall`
defines both `SIGEMT` and `SIGINFO`. -/
def bsd : Syscall where
  SIGABRT := 6
  SIGALRM := 14
  SIGBUS := 10
  SIGCHLD := 20
  SIGCONT := 19
  SIGEMT := 7
  SIGFPE := 8
  SIGHUP := 1
  SIGILL := 4
  SIGINFO := 29
  SIGINT := 2
  SIGIO := 23
  SIGIOT := 6
  SIGKILL := 9
  SIGPIPE := 13
  SIGPROF := 27
  SIGQUIT := 3
  SIGSEGV := 11
  SIGSTOP := 17
  SIGSYS := 12
  SIGTERM := 15
  SIGTRAP := 5
  SIGTSTP := 18
  SIGTTIN := 21
  SIGTTOU := 22
  SIGURG := 16
  SIGUSR1 := 30
  SIGUSR2 := 31
  SIGVTALRM := 26
  SIGWINCH := 28
  SIGXCPU := 24
  SIGXFSZ := 25

/-- Signal table: the map literal `signals`, entry by entry. -/
def signals (sys : Syscall) : List (String × Nat) :=
  [ ("SIGABRT", sys.SIGABRT),
    ("SIGALRM", sys.SIGALRM),
    ("SIGBUS", sys.SIGBUS),
    ("SIGCHLD", sys.SIGCHLD),
    ("SIGCONT", sys.SIGCONT),
    ("SIGEMT", sys.SIGEMT),
    ("SIGFPE", sys.SIGFPE),
    ("SIGHUP", sys.SIGHUP),
    ("SIGILL", sys.SIGKILL),
    ("SIGINFO", sys.SIGINFO),
    ("SIGINT", sys.SIGINT),
    ("SIGIO", sys.SIGIO),
    ("SIGIOT", sys.SIGIOT),
    ("SIGKILL", sys.SIGKILL),
    ("SIGPIPE", sys.SIGPIPE),
    ("SIGPROF", sys.SIGPROF),
    ("SIGQUIT", sys.SIGQUIT),
    ("SIGSEGV", sys.SIGSEGV),
    ("SIGSTOP", sys.SIGSTOP),
    ("SIGSYS", sys.SIGSYS),
    ("SIGTERM", sys.SIGTERM),
    ("SIGTRAP", sys.SIGTRAP),
    ("SIGTSTP", sys.SIGTSTP),
    ("SIGTTIN", sys.SIGTTIN),
    ("SIGTTOU", sys.SIGTTOU),
    ("SIGURG", sys.SIGURG),
    ("SIGUSR1", sys.SIGUSR1),
    ("SIGUSR2", sys.SIGUSR2),
    ("SIGVTALRM", sys.SIGVTALRM),
    ("SIGWINCH", sys.SIGWINCH),
    ("SIGXCPU", sys.SIGXCPU),
    ("SIGXFSZ", sys.SIGXFSZ) ]

/-- The map literal `onExitTable`. -/
def onExitTable : List (String × Bool) :=
  [ (OnExitDoNothing, true),
    (OnExitRestart, true),
    (OnExitTerminate, true),
    (OnExitTerminateIfError, true) ]

/-- What `validPath` asks of the outside: `filepath.Dir`, and the error of
`os.Stat` on a path (`none` when the path can be examined). -/
structure PathEnv where
  dir : String → String
  statErr : String → Option String

/-- The function `validPath`: `none` for `(true, nil)`, the error of `os.Stat` on
the directory of `p` for `(false, err)`. -/
def validPath (fs : PathEnv) (p : String) : Option String :=
  fs.statErr (fs.dir p)

/-- The function `Config.setDefaults`, on one service. -/
def setServiceDefaults (s : ServiceConfig) : ServiceConfig :=
  let s := if s.OnExit = "" then { s with OnExit := DefaultOnExit } else s
  let s := if s.StopSignalStr = "" then { s with StopSignalStr := DefaultStopSignal } else s
  let s := if s.Stdout = "" then { s with Stdout := Stdout } else s
  let s := if s.Stderr = "" then { s with Stderr := Stderr } else s
  if s.StartupDelay = 0 then { s with StartupDelay := DefaultStartupDelay } else s

/-- The function `Config.setDefaults`. -/
def setDefaults (config : Config) : Config :=
  let config :=
    if config.ShutdownTimeoutSec = 0 then
      { config with ShutdownTimeoutSec := DefaultShutdownTimout }
    else config
  { config with Services := config.Services.map setServiceDefaults }

/-- The body of the loop of `Config.parse` for the service at index `i`: the
service as the iteration leaves it, or the error the iteration returns. -/
def parseService (sys : Syscall) (fs : PathEnv) (i : Nat) (s : ServiceConfig) :
    Except String ServiceConfig :=
  if s.Name = "" then
    .error ("service " ++ toString (i + 1) ++ ": name cannot be empty")
  else
    let startCmd := Trim s.StartCommand
    if startCmd = "" then
      .error ("service '" ++ s.Name ++ "': start command cannot be empty")
    else
      let s := { s with CommandLine := Split startCmd }
      let onExit := Trim s.OnExit
      if onExit = "" then
        .error ("service '" ++ s.Name ++ "': OnExit cannot be empty")
      else
        let s := { s with OnExit := onExit }
        if (onExitTable.lookup s.OnExit).isNone then
          .error ("service '" ++ s.Name ++ "': unknown value for on_exit parameter: '"
            ++ s.OnExit ++ "'")
        else
          let stopSignal := Trim s.StopSignalStr
          match (signals sys).lookup stopSignal with
          | none =>
            .error ("service '" ++ s.Name ++ "': unknown value for stop_signal parameter: '"
              ++ stopSignal ++ "'")
          | some val =>
            let s := { s with StopSignalStr := stopSignal, StopSignal := val }
            match (if s.Stdout ≠ Stdout ∨ s.Stdout ≠ s.Stderr then validPath fs s.Stdout
                   else none) with
            | some err =>
              .error ("invalid value(" ++ s.Stdout ++ ") for stdout property for " ++ s.Name
                ++ ": " ++ err)
            | none =>
              match (if s.Stderr ≠ Stdout ∨ s.Stderr ≠ s.Stderr then validPath fs s.Stderr
                     else none) with
              | some err =>
                .error ("invalid value(" ++ s.Stderr ++ ") for stdout property for " ++ s.Name
                  ++ ": " ++ err)
              | none => .ok s

/-- The loop of `Config.parse` from index `i` on: the services as the loop leaves
them, or the error of the first iteration that returns one. -/
def parseLoop (sys : Syscall) (fs : PathEnv) : Nat → List ServiceConfig →
    Except String (List ServiceConfig)
  | _, [] => .ok []
  | i, s :: rest =>
    match parseService sys fs i s with
    | .error e => .error e
    | .ok s1 =>
      match parseLoop sys fs (i + 1) rest with
      | .error e => .error e
      | .ok rest1 => .ok (s1 :: rest1)

/-- The function `Config.parse`: the configuration as a successful run leaves it,
or the error it returns. -/
def parse (sys : Syscall) (fs : PathEnv) (config : Config) : Except String Config :=
  if config.Services.length = 0 then
    .error "there should be at least one service"
  else
    match parseLoop sys fs 0 config.Services with
    | .error e => .error e
    | .ok services => .ok { config with Services := services }

/-! ## csm_service.go -/

/-- What aborts the supervisor instead of returning: a nil pointer dereference,
an index out of range, and `log.Fatal`. -/
inductive Fault where
  | nilDereference
  | indexOutOfRange
  | fatal (msg : String)
  deriving DecidableEq, Repr

/-- A file handle (`*os.File` that is not nil): one of the three streams the
supervisor inherits, or a file that `os.OpenFile` or `os.Create` returned. -/
inductive File where
  | Stdin
  | Stdout
  | Stderr
  | opened (fd : Nat)
  deriving DecidableEq, Repr

/-- The record of one supervised service. `process` holds the `Pid` of the
`*os.Process`. -/
structure Service where
  process : Option Int := none
  exitCode : Option Int := none
  stopped : Bool := false
  restarts : Nat := 0
  stdout : Option File := none
  stderr : Option File := none
  config : ServiceConfig
  deriving DecidableEq, Repr

/-- The function `NewService`. -/
def NewService (config : ServiceConfig) : Service :=
  { config := config }

/-- The three answers of `os.Stat` that `getOutput` tells apart: file information,
an error that `os.IsNotExist` accepts, any other error. -/
inductive StatResult where
  | info
  | notExist (err : String)
  | failed (err : String)
  deriving DecidableEq, Repr

/-- What `getOutput` asks of the file system: `os.Stat`, `os.OpenFile` and
`os.Create` on a path; a file that is opened is named by its descriptor. -/
structure OutputEnv where
  stat : String → StatResult
  openFile : String → Except String Nat
  create : String → Except String Nat

/-- The method `Service.getOutput`: the handle, or the error with a nil handle. -/
def getOutput (env : OutputEnv) (s : String) : Except String File :=
  if s = Stdout then .ok File.Stdout
  else if s = Stderr then .ok File.Stderr
  else
    match env.stat s with
    | .info =>
      match env.openFile s with
      | .error err => .error ("unable to open output file for path " ++ s ++ ": " ++ err)
      | .ok fd => .ok (File.opened fd)
    | .notExist _ =>
      match env.create s with
      | .error err => .error ("unable to create output file for path " ++ s ++ ": " ++ err)
      | .ok fd => .ok (File.opened fd)
    | .failed err => .error ("unable to open output file for path " ++ s ++ ": " ++ err)

/-- The method `Service.closeOutputs`: the handles on which it calls `Close`, in
the order of the calls. -/
def closeOutputs (service : Service) : List File :=
  (match service.stdout with
    | some f => if f ≠ File.Stdout then [f] else []
    | none => [])
  ++
  (match service.stderr with
    | some f => if f ≠ File.Stderr then [f] else []
    | none => [])

/-- What one call of `Service.Start` does to the outside: a call of
`os.StartProcess` with its name, arguments, directory and files and the process
id it returned (`none` when it failed), and a call of `Close` on a handle. -/
inductive Effect where
  | startProcess (name : String) (argv : List String) (dir : String)
      (files : List (Option File)) (pid : Option Int)
  | close (f : File)
  deriving DecidableEq, Repr

/-- What one call of `Service.Start` asks of the outside: `os.Getwd`, the file
system for each of the two outputs, and `os.StartProcess`. -/
structure StartEnv where
  getwd : Except String String
  stdoutFs : OutputEnv
  stderrFs : OutputEnv
  startProcess : Except String Int

/-- The method `Service.Start`: the record as the call leaves it, what the call
did, and the error it returned (`none` for nil). -/
def Service.Start (service : Service) (env : StartEnv) :
    Except Fault (Service × List Effect × Option String) :=
  match (if service.config.WorkDirectory = "" then env.getwd
         else .ok service.config.WorkDirectory) with
  | .error err => .ok (service, [], some err)
  | .ok wd =>
    match getOutput env.stdoutFs service.config.Stdout with
    | .error err =>
      .ok ({ service with stdout := none }, [], some ("unable to prepare stdout: " ++ err))
    | .ok out =>
      let service := { service with stdout := some out }
      match getOutput env.stderrFs service.config.Stderr with
      | .error err =>
        let service := { service with stderr := none }
        .ok (service, (closeOutputs service).map Effect.close,
          some ("unable to prepare stderr: " ++ err))
      | .ok err_ =>
        let service := { service with stderr := some err_ }
        match service.config.CommandLine with
        | [] => .error Fault.indexOutOfRange
        | name :: _ =>
          let files := [some File.Stdin, service.stdout, service.stderr]
          match env.startProcess with
          | .error err =>
            .ok (service,
              Effect.startProcess name service.config.CommandLine wd files none
                :: (closeOutputs service).map Effect.close,
              some ("unable to run '" ++ service.config.StartCommand ++ "': " ++ err))
          | .ok p =>
            .ok ({ service with process := some p },
              [Effect.startProcess name service.config.CommandLine wd files (some p)], none)

/-! ## csm_manager.go -/

/-- The supervisor. -/
structure ServiceManager where
  config : Config
  services : List Service
  started : Bool := false
  deriving DecidableEq, Repr

/-- What the supervisor does to the outside, in the order in which it happens:
it calls `Start` on the service at index `i`, that call has an effect, it sends
signal `sig` to the process `pid` of the service at index `i`, it closes a handle
of the service at index `i`, it enters `shutdown`. -/
inductive Action where
  | start (i : Nat)
  | effect (i : Nat) (e : Effect)
  | signal (i : Nat) (pid : Int) (sig : Nat)
  | shutdown
  deriving DecidableEq, Repr

/-- The function `NewServiceManager`. -/
def NewServiceManager (config : Config) : ServiceManager :=
  { config := config, services := config.Services.map NewService }

/-- The loop of `StartAll` from index `i` on, the call of `Start` on the service
at index `k` being answered by `envs k`: the records as the loop leaves them, what
it did, and the error it returned. -/
def startLoop (envs : Nat → StartEnv) : Nat → List Service →
    Except Fault (List Service × List Action × Option String)
  | _, [] => .ok ([], [], none)
  | i, s :: rest =>
    match s.Start (envs i) with
    | .error f => .error f
    | .ok (s1, effs, some err) =>
      .ok (s1 :: rest, Action.start i :: effs.map (Action.effect i),
        some ("unable to start service " ++ s.config.Name ++ ": '" ++ err ++ "'. Exitting"))
    | .ok (s1, effs, none) =>
      match startLoop envs (i + 1) rest with
      | .error f => .error f
      | .ok (rest1, acts, r) =>
        .ok (s1 :: rest1, Action.start i :: effs.map (Action.effect i) ++ acts, r)

/-- The method `ServiceManager.StartAll`. -/
def StartAll (sm : ServiceManager) (envs : Nat → StartEnv) :
    Except Fault (ServiceManager × List Action × Option String) :=
  if sm.started then .ok (sm, [], some "already started")
  else
    match startLoop envs 0 sm.services with
    | .error f => .error f
    | .ok (services, acts, some err) => .ok ({ sm with services := services }, acts, some err)
    | .ok (services, acts, none) =>
      .ok ({ sm with services := services, started := true }, acts, none)

/-- What `shutdown` asks of the outside, by the index of the service: the error
of `process.Signal` (`none` for nil), and the return of `process.Wait`: the time,
in nanoseconds since the wait loop began, and the value of `state.ExitCode()`;
`none` for a process that does not terminate. -/
structure ShutdownEnv where
  signalErr : Nat → Option String
  wait : Nat → Option (Nat × Int)

/-- A value that the wait loop of `shutdown` can receive: `true` on the channel
`c1`, or the service at index `i` on the channel `sc`. -/
inductive Msg where
  | done
  | stoppedService (i : Nat)
  deriving DecidableEq, Repr

/-- The first loop of `shutdown` from index `i` on: every record that is not
stopped is sent its stop signal, and is marked stopped when sending fails. -/
def signalLoop (sd : ShutdownEnv) : Nat → List Service →
    Except Fault (List Service × List Action)
  | _, [] => .ok ([], [])
  | i, s :: rest =>
    match (if s.stopped then .ok (s, [])
           else
             match s.process with
             | none => .error Fault.nilDereference
             | some pid =>
               match sd.signalErr i with
               | some _ =>
                 .ok ({ s with stopped := true }, [Action.signal i pid s.config.StopSignal])
               | none => .ok (s, [Action.signal i pid s.config.StopSignal])
           : Except Fault (Service × List Action)) with
    | .error f => .error f
    | .ok (s1, acts) =>
      match signalLoop sd (i + 1) rest with
      | .error f => .error f
      | .ok (rest1, acts1) => .ok (s1 :: rest1, acts ++ acts1)

/-- The second loop of `shutdown` from index `i` on: the indices of the records
that are not stopped, which is the slice `list`. -/
def waitList : Nat → List Service → List Nat
  | _, [] => []
  | i, s :: rest => if s.stopped then waitList (i + 1) rest else i :: waitList (i + 1) rest

/-- The message `m` joins the messages that wait to be received, which are in
the order of their times; among messages of one time the earlier sender is first. -/
def enqueue (m : Nat × Msg) : List (Nat × Msg) → List (Nat × Msg)
  | [] => [m]
  | x :: xs => if m.1 < x.1 then m :: x :: xs else x :: enqueue m xs

/-- The messages of the wait tasks of `shutdown`, each with the time at which it
can be received: a task sends its service on `sc` when `process.Wait` returns, and
`true` is sent on `c1` when every task is done, that is after the last of them has
sent. The loop is blocked in `select` whenever a task sends, so it receives each
message at the time it is sent. -/
def waitTasks (sd : ShutdownEnv) (list : List Nat) : List (Nat × Msg) :=
  let sent : List (Nat × Msg) :=
    list.foldl
      (fun q i =>
        match sd.wait i with
        | some (t, _) => enqueue (t, Msg.stoppedService i) q
        | none => q)
      []
  if list.all (fun i => (sd.wait i).isSome) then
    sent ++ [((sent.map Prod.fst).foldl max 0, Msg.done)]
  else sent

/-- The assignment `stoppedServices[ss] = v` on the map kept as a list of entries. -/
def mapSet (m : List (Nat × Bool)) (k : Nat) (v : Bool) : List (Nat × Bool) :=
  if m.any (fun e => e.1 == k) then m.map (fun e => if e.1 = k then (k, v) else e)
  else m ++ [(k, v)]

/-- How the wait loop of `shutdown` ends: the time, in nanoseconds since the loop
began, the map `stoppedServices`, and whether the timeout case ended it. -/
structure WaitResult where
  elapsed : Nat
  stoppedServices : List (Nat × Bool)
  timedOut : Bool
  deriving DecidableEq, Repr

/-- The wait loop of `shutdown`, entered at time `now` with the messages that
are still to arrive. Every entry into `select` evaluates `time.After(timeout)`
anew, so the timer of this iteration fires at `now + timeout`; the first message
is received if it can be received before that. -/
def waitLoop (timeout : Nat) : List (Nat × Msg) → Nat → List (Nat × Bool) → WaitResult
  | [], now, m => { elapsed := now + timeout, stoppedServices := m, timedOut := true }
  | (t, msg) :: rest, now, m =>
    if max t now < now + timeout then
      match msg with
      | .done => { elapsed := max t now, stoppedServices := m, timedOut := false }
      | .stoppedService i => waitLoop timeout rest (max t now) (mapSet m i true)
    else { elapsed := now + timeout, stoppedServices := m, timedOut := true }

/-- The loop over `stoppedServices` in the timeout case of `shutdown`: the calls
of `closeOutputs` on the services whose entry is true. -/
def closeStopped (services : List Service) : List (Nat × Bool) → List Action
  | [] => []
  | (k, v) :: rest =>
    (if v then
      match services.get? k with
      | some s => (closeOutputs s).map (fun f => Action.effect k (Effect.close f))
      | none => []
    else [])
    ++ closeStopped services rest

/-- The assignment `s.exitCode = &code` of the wait tasks that have returned from
`process.Wait` by the time `upTo`, from index `i` on. -/
def recordExitCodes (sd : ShutdownEnv) (list : List Nat) (upTo : Nat) :
    Nat → List Service → List Service
  | _, [] => []
  | i, s :: rest =>
    (match sd.wait i with
      | some (t, code) =>
        if i ∈ list ∧ t ≤ upTo then { s with exitCode := some code } else s
      | none => s)
    :: recordExitCodes sd list upTo (i + 1) rest

/-- The method `ServiceManager.shutdown`: the supervisor as the call leaves it,
what the call did, and the time the wait loop took, in nanoseconds. -/
def shutdown (sm : ServiceManager) (sd : ShutdownEnv) :
    Except Fault (ServiceManager × List Action × Nat) :=
  match signalLoop sd 0 sm.services with
  | .error f => .error f
  | .ok (services, signals) =>
    let list := waitList 0 services
    let stoppedServices := list.map (fun i => (i, false))
    let r := waitLoop (sm.config.ShutdownTimeoutSec * 1000000000) (waitTasks sd list) 0
      stoppedServices
    let closes := if r.timedOut then closeStopped services r.stoppedServices else []
    .ok ({ sm with services := recordExitCodes sd list r.elapsed 0 services },
      Action.shutdown :: signals ++ closes, r.elapsed)

/-- The loop of `findTerminatedChild`: the first record whose process has the
process id `pid` is marked stopped and gets the exit code; its index and the
record are returned with the records as the loop leaves them. -/
def findChild (pid : Int) (code : Int) : List Service →
    Except Fault (Option (Nat × Service) × List Service)
  | [] => .ok (none, [])
  | p :: rest =>
    match p.process with
    | none => .error Fault.nilDereference
    | some q =>
      if q = pid then
        let p := { p with stopped := true, exitCode := some code }
        .ok (some (0, p), p :: rest)
      else
        match findChild pid code rest with
        | .error f => .error f
        | .ok (r, rest1) => .ok (r.map (fun x => (x.1 + 1, x.2)), p :: rest1)

/-- The method `ServiceManager.findTerminatedChild`; `wait4` is the answer of
`syscall.Wait4`: an error, or the process id and `status.ExitStatus()`. -/
def findTerminatedChild (sm : ServiceManager) (wait4 : Except String (Int × Int)) :
    Except Fault (Option (Nat × Service) × ServiceManager) :=
  match wait4 with
  | .error err => .error (Fault.fatal err)
  | .ok (pid, code) =>
    match findChild pid code sm.services with
    | .error f => .error f
    | .ok (r, services) => .ok (r, { sm with services := services })

/-- The modulus of the arithmetic of the Go type `uint`. -/
def uintModulus : Nat := 2 ^ 64

/-- Subtraction of the Go type `uint`. -/
def uintSub (a b : Nat) : Nat := (a + uintModulus - b % uintModulus) % uintModulus

/-- What `MainLoop` selects on: a signal on `quitChan`, or a signal on
`childChan`; each comes with the answers of the outside to what the iteration may
ask: `syscall.Wait4`, a call of `Start`, a call of `shutdown`. -/
inductive Event where
  | quit (sig : Nat) (sd : ShutdownEnv)
  | child (wait4 : Except String (Int × Int)) (st : StartEnv) (sd : ShutdownEnv)

/-- How one iteration of the loop of `MainLoop` ends: with the next iteration, or
with the return of `MainLoop`. -/
inductive Step where
  | next (sm : ServiceManager)
  | exit (sm : ServiceManager) (code : Int)
  deriving DecidableEq, Repr

/-- The block `if offender.config.OnExit == OnExitRestart` of `MainLoop` for the
offender at index `i`: the value that the block returns from `MainLoop` (`none`
when control leaves the block at its end), the supervisor, the offender, and what
the block did. -/
def restartBlock (sm : ServiceManager) (i : Nat) (offender : Service) (st : StartEnv) :
    Except Fault (Option Int × ServiceManager × Service × List Action) :=
  if offender.config.OnExit = OnExitRestart then
    let restartsLeft := uintSub offender.config.MaxRestarts offender.restarts
    if restartsLeft > 0 then
      let offender := { offender with restarts := (offender.restarts + 1) % uintModulus }
      match offender.Start st with
      | .error f => .error f
      | .ok (offender, effs, err) =>
        let sm := { sm with services := sm.services.set i offender }
        let acts := Action.start i :: effs.map (Action.effect i)
        match err with
        | some _ => .ok (some (-1), sm, offender, acts)
        | none => .ok (none, sm, offender, acts)
    else .ok (none, sm, offender, [])
  else .ok (none, sm, offender, [])

/-- The case `<-childChan` of the loop of `MainLoop`. -/
def childCase (sm : ServiceManager) (wait4 : Except String (Int × Int)) (st : StartEnv)
    (sd : ShutdownEnv) : Except Fault (Step × List Action) :=
  match findTerminatedChild sm wait4 with
  | .error f => .error f
  | .ok (none, sm) => .ok (Step.next sm, [])
  | .ok (some (i, offender), sm) =>
    match offender.exitCode with
    | none => .error Fault.nilDereference
    | some exitCode =>
      if offender.config.OnExit = OnExitTerminateIfError then
        if exitCode = 0 then .ok (Step.next sm, [])
        else
          match shutdown sm sd with
          | .error f => .error f
          | .ok (sm, acts, _) => .ok (Step.exit sm exitCode, acts)
      else
        match restartBlock sm i offender st with
        | .error f => .error f
        | .ok (some code, sm, _, acts) => .ok (Step.exit sm code, acts)
        | .ok (none, sm, offender, acts) =>
          if offender.config.OnExit = OnExitTerminate then
            match shutdown sm sd with
            | .error f => .error f
            | .ok (sm, acts1, _) => .ok (Step.exit sm exitCode, acts ++ acts1)
          else .ok (Step.next sm, acts)

/-- The loop of `MainLoop` on the events that arrive: the supervisor, what the
loop did, and the value that `MainLoop` returns, `none` when the loop is blocked
in `select` after the last event. -/
def eventLoop : ServiceManager → List Event →
    Except Fault (ServiceManager × List Action × Option Int)
  | sm, [] => .ok (sm, [], none)
  | sm, .quit _ sd :: _ =>
    match shutdown sm sd with
    | .error f => .error f
    | .ok (sm, acts, _) => .ok (sm, acts, some 0)
  | sm, .child wait4 st sd :: rest =>
    match childCase sm wait4 st sd with
    | .error f => .error f
    | .ok (Step.exit sm code, acts) => .ok (sm, acts, some code)
    | .ok (Step.next sm, acts) =>
      match eventLoop sm rest with
      | .error f => .error f
      | .ok (sm, acts1, r) => .ok (sm, acts ++ acts1, r)

/-- The method `ServiceManager.MainLoop`. -/
def MainLoop (sm : ServiceManager) (events : List Event) :
    Except Fault (ServiceManager × List Action × Option Int) :=
  if !sm.started then .ok (sm, [], some (-1))
  else eventLoop sm events

/-! ## Observations and inputs -/

/-- Whether a call of `Start` on the record returns nil. -/
def startSucceeds (s : Service) (env : StartEnv) : Bool :=
  match s.Start env with
  | .ok (_, _, none) => true
  | _ => false

/-- Whether a call of `Start` on the record returns an error. -/
def startFails (s : Service) (env : StartEnv) : Bool :=
  match s.Start env with
  | .ok (_, _, some _) => true
  | _ => false

/-- The index of the service that an action concerns. -/
def Action.service : Action → Option Nat
  | .start i => some i
  | .effect i _ => some i
  | .signal i _ _ => some i
  | .shutdown => none

/-- The index of the service for which the action is a call of `os.StartProcess`
that returned a process. -/
def Action.launch : Action → Option Nat
  | .effect i (.startProcess _ _ _ _ (some _)) => some i
  | _ => none

/-- The services for which a process was launched, in the order of the launches. -/
def launches (acts : List Action) : List Nat :=
  acts.filterMap Action.launch

/-- The handles that were closed, in the order of the calls of `Close`. -/
def closes (acts : List Action) : List File :=
  acts.filterMap (fun a =>
    match a with
    | .effect _ (.close f) => some f
    | _ => none)

/-- A file system in which every directory can be examined. -/
def everyPath : PathEnv :=
  { dir := fun _ => ".", statErr := fun _ => none }

/-- A file system in which every path is an existing file that can be opened. -/
def everyFile (fd : Nat) : OutputEnv :=
  { stat := fun _ => StatResult.info, openFile := fun _ => .ok fd, create := fun _ => .ok fd }

/-- An outside in which a launch succeeds and returns the process id `pid`; a
file that is opened for the outputs gets the descriptor `fd` or `fd + 1`. -/
def launchOk (pid : Int) (fd : Nat) : StartEnv :=
  { getwd := .ok "/srv", stdoutFs := everyFile fd, stderrFs := everyFile (fd + 1),
    startProcess := .ok pid }

/-- An outside in which `os.StartProcess` fails. -/
def launchFails : StartEnv :=
  { getwd := .ok "/srv", stdoutFs := everyFile 3, stderrFs := everyFile 4,
    startProcess := .error "no such file or directory" }

/-- A configuration file whose only service asks for the stop signal `SIGILL`. -/
def sigillConfig : Config :=
  { ShutdownTimeoutSec := 3,
    Services := [{ Name := "web", StartCommand := "/bin/sleep 60", OnExit := "terminate",
                   StopSignalStr := "SIGILL", Stdout := "stdout", Stderr := "stderr" }] }

/-- A service that sends its standard output to `stderr` and its standard error
to `stdout`, as `Config.parse` leaves it. -/
def crossedService : ServiceConfig :=
  { Name := "web", StartCommand := "/bin/sleep 60", OnExit := "terminate",
    StopSignalStr := "SIGTERM", Stdout := "stderr", Stderr := "stdout",
    CommandLine := ["/bin/sleep", "60"], StopSignal := 15 }

/-- A configuration file with the service `crossedService`. -/
def crossedConfig : Config :=
  { ShutdownTimeoutSec := 3,
    Services := [{ Name := "web", StartCommand := "/bin/sleep 60", OnExit := "terminate",
                   StopSignalStr := "SIGTERM", Stdout := "stderr", Stderr := "stdout" }] }

/-- A service with the given name and policy whose standard output goes to a file. -/
def fileService (name onExit : String) (maxRestarts : Nat) : ServiceConfig :=
  { Name := name, StartCommand := "/bin/sleep 60", OnExit := onExit,
    MaxRestarts := maxRestarts, StopSignalStr := "SIGTERM",
    Stdout := "/var/log/" ++ name ++ ".log", Stderr := "stderr",
    CommandLine := ["/bin/sleep", "60"], StopSignal := 15 }

/-- A supervisor of two services before `StartAll`. -/
def twoServices : ServiceManager :=
  NewServiceManager
    { ShutdownTimeoutSec := 3,
      Services := [fileService "web" "terminate" 0, fileService "db" "terminate" 0] }

/-- An outside in which the launch of the service at index 0 returns the process
id 100 and every other launch fails. -/
def onlyFirstLaunches : Nat → StartEnv :=
  fun k => if k = 0 then launchOk 100 10 else launchFails

/-- An outside in which the launch of the service at index `k` returns the
process id `200 + k`. -/
def allLaunch : Nat → StartEnv :=
  fun k => launchOk (200 + k) (10 + 2 * k)

/-- The services on which `Start` was called, in the order of the calls. -/
def startCalls (acts : List Action) : List Nat :=
  acts.filterMap (fun a =>
    match a with
    | .start i => some i
    | _ => none)

/-- Whether every event of the list is the death of a child that
`findTerminatedChild` finds at index `i`, with an outside in which a call of
`Start` on that record returns nil. The events after one at which `MainLoop`
returns are not looked at. -/
def deathsOf (i : Nat) : ServiceManager → List Event → Bool
  | _, [] => true
  | _, .quit _ _ :: _ => false
  | sm, .child wait4 st sd :: rest =>
    match findTerminatedChild sm wait4 with
    | .ok (some (j, offender), _) =>
      j == i && startSucceeds offender st &&
        (match childCase sm wait4 st sd with
          | .ok (Step.next sm1, _) => deathsOf i sm1 rest
          | _ => true)
    | _ => false

/-- An outside in which every signal is delivered and every process exits with
code 0 after `ns` nanoseconds. -/
def exitsAfter (ns : Nat) : ShutdownEnv :=
  { signalErr := fun _ => none, wait := fun _ => some (ns, 0) }

/-- A supervisor of two services after a successful `StartAll`; the first service
has the given policy and restart budget, the processes have the ids 200 and 201. -/
def running (onExit : String) (maxRestarts : Nat) : ServiceManager :=
  let sm := NewServiceManager
    { ShutdownTimeoutSec := 3,
      Services := [fileService "web" onExit maxRestarts, fileService "db" "do_nothing" 0] }
  match StartAll sm allLaunch with
  | .ok (sm1, _, _) => sm1
  | .error _ => sm

/-- The death of the child `pid` with the exit status `code`, in an outside in
which a relaunch returns the process id `next`. -/
def death (pid code next : Int) : Event :=
  Event.child (.ok (pid, code)) (launchOk next 20) (exitsAfter 1000000000)

/-- An outside in which every signal is delivered, the process of the service at
index 0 exits after 2 seconds and no other process exits. -/
def firstExitsOnly : ShutdownEnv :=
  { signalErr := fun _ => none,
    wait := fun i => if i = 0 then some (2000000000, 0) else none }

/-- An outside in which every signal is delivered, the process of the service at
index 0 exits after 2 seconds and every other process after 4 seconds. -/
def exitInTurn : ShutdownEnv :=
  { signalErr := fun _ => none,
    wait := fun i => if i = 0 then some (2000000000, 0) else some (4000000000, 0) }

/-- Three deaths in a row of the service at index 0 of `running`: of the process
that `StartAll` launched and of its first two successors. -/
def threeDeaths : List Event :=
  [death 200 1 300, death 300 1 301, death 301 1 302]

/-- The services that were sent a signal, in the order of the calls of
`process.Signal`, each with the process id and the signal. -/
def signalled (acts : List Action) : List (Nat × Int × Nat) :=
  acts.filterMap (fun a =>
    match a with
    | .signal i pid sig => some (i, pid, sig)
    | _ => none)

/-- The service at index 0 of `running` dies and is relaunched as the process
300; then an interrupt arrives while the processes 300 and 201 run, and each of
them would exit one second after being signalled. -/
def relaunchThenQuit : List Event :=
  [death 200 1 300, Event.quit 2 (exitsAfter 1000000000)]

/-! ## Theorems: the configuration -/

theorem dropWhile_head_not {α : Type} (p : α → Bool) :
    ∀ (l : List α) (c : α) (cs : List α), l.dropWhile p = c :: cs → p c = false
  | [], _, _, h => by simp at h
  | a :: l, c, cs, h => by
    by_cases ha : p a = true
    · rw [List.dropWhile_cons_of_pos ha] at h
      exact dropWhile_head_not p l c cs h
    · rw [List.dropWhile_cons_of_neg ha] at h
      simp only [List.cons.injEq] at h
      rw [← h.1]
      simpa using ha

theorem splitChars_head (sep c : Char) (cs : List Char) (h : c ≠ sep) :
    ∃ w ws, splitChars sep (c :: cs) = (c :: w) :: ws := by
  simp only [splitChars, if_neg h]
  cases hs : splitChars sep cs with
  | nil => exact ⟨[], [], rfl⟩
  | cons w ws => exact ⟨w, ws, rfl⟩

theorem Split_Trim_head (s : String) (h : Trim s ≠ "") :
    ∃ name rest, Split (Trim s) = name :: rest ∧ name ≠ "" := by
  cases hd : (Trim s).data with
  | nil =>
    exact absurd (String.ext hd) h
  | cons c cs =>
    have hc : (c == ' ') = false := by
      have := dropWhile_head_not (fun c => c == ' ') _ c cs (by simpa [Trim] using hd)
      simpa using this
    have hne : c ≠ ' ' := by simpa using hc
    obtain ⟨w, ws, hw⟩ := splitChars_head ' ' c cs hne
    refine ⟨String.mk (c :: w), ws.map String.mk, ?_, ?_⟩
    · simp [Split, hd, hw]
    · intro h0
      have := congrArg String.data h0
      simp at this

theorem parseService_ok (sys : Syscall) (fs : PathEnv) (i : Nat) (s s1 : ServiceConfig)
    (h : parseService sys fs i s = .ok s1) :
    s1.Name = s.Name ∧ s.Name ≠ "" ∧ Trim s.StartCommand ≠ "" ∧
      s1.CommandLine = Split (Trim s.StartCommand) ∧
      (signals sys).lookup (Trim s.StopSignalStr) = some s1.StopSignal := by
  unfold parseService at h
  by_cases h1 : s.Name = ""
  · simp [h1] at h
  by_cases h2 : Trim s.StartCommand = ""
  · simp [h1, h2] at h
  simp only [if_neg h1, if_neg h2] at h
  by_cases h3 : Trim s.OnExit = ""
  · simp [h3] at h
  by_cases h4 : (List.lookup (Trim s.OnExit) onExitTable).isNone = true
  · simp [h3, h4] at h
  simp only [if_neg h3, if_neg h4] at h
  split at h
  · exact absurd h (by simp)
  · rename_i val hval
    split at h
    · exact absurd h (by simp)
    · split at h
      · exact absurd h (by simp)
      · simp only [Except.ok.injEq] at h
        subst h
        exact ⟨rfl, h1, h2, rfl, hval⟩

theorem parseLoop_ok (sys : Syscall) (fs : PathEnv) :
    ∀ (l : List ServiceConfig) (i : Nat) (l1 : List ServiceConfig),
      parseLoop sys fs i l = .ok l1 →
      ∀ s1 ∈ l1, ∃ j s, s ∈ l ∧ parseService sys fs j s = .ok s1
  | [], _, l1, h, s1, hs1 => by
    simp only [parseLoop, Except.ok.injEq] at h
    subst h
    simp at hs1
  | s :: rest, i, l1, h, s1, hs1 => by
    simp only [parseLoop] at h
    split at h
    · exact absurd h (by simp)
    · rename_i s0 hs0
      split at h
      · exact absurd h (by simp)
      · rename_i rest1 hrest
        simp only [Except.ok.injEq] at h
        subst h
        rcases List.mem_cons.mp hs1 with h0 | h0
        · subst h0
          exact ⟨i, s, List.mem_cons_self _ _, hs0⟩
        · obtain ⟨j, s', hm, hp⟩ := parseLoop_ok sys fs rest (i + 1) rest1 hrest s1 h0
          exact ⟨j, s', List.mem_cons_of_mem _ hm, hp⟩


theorem Start_no_fault (service : Service) (env : StartEnv)
    (h : service.config.CommandLine ≠ []) : ∃ r, service.Start env = .ok r := by
  obtain ⟨name, tail, hcl⟩ := List.exists_cons_of_ne_nil h
  unfold Service.Start
  simp only [hcl]
  repeat' split
  all_goals exact ⟨_, rfl⟩

/-- C10: in a configuration that `Config.parse` accepts, every service has a
name that is not empty and a `CommandLine` that has a first element, which is not
the empty string; so `Service.Start` on a record of such a service never stops at
the index `CommandLine[0]`: it returns. -/
theorem parse_commandLine_in_range (sys : Syscall) (fs : PathEnv) (config config1 : Config)
    (h : parse sys fs config = .ok config1) :
    ∀ s ∈ config1.Services,
      s.Name ≠ "" ∧ (∃ name rest, s.CommandLine = name :: rest ∧ name ≠ "") ∧
        ∀ (service : Service) (env : StartEnv), service.config = s →
          ∃ r, service.Start env = .ok r := by
  intro s1 hs1
  unfold parse at h
  split_ifs at h with h0
  split at h
  · exact absurd h (by simp)
  · rename_i services hl
    simp only [Except.ok.injEq] at h
    subst h
    obtain ⟨j, s, _, hp⟩ := parseLoop_ok sys fs _ _ _ hl s1 hs1
    obtain ⟨hn, hne, ht, hc, _⟩ := parseService_ok sys fs j s s1 hp
    obtain ⟨name, rest, hsplit, hname⟩ := Split_Trim_head s.StartCommand ht
    refine ⟨by rw [hn]; exact hne, ⟨name, rest, by rw [hc, hsplit], hname⟩, ?_⟩
    intro service env hcfg
    apply Start_no_fault
    rw [hcfg, hc, hsplit]
    simp

/-- A configuration that `Config.parse` accepts, with the service as the
run leaves it. -/
theorem parse_commandLine_in_range_witness :
    parse bsd everyPath sigillConfig =
        .ok { sigillConfig with
              Services := [{ Name := "web", StartCommand := "/bin/sleep 60",
                             OnExit := "terminate", StopSignalStr := "SIGILL",
                             Stdout := "stdout", Stderr := "stderr",
                             CommandLine := ["/bin/sleep", "60"], StopSignal := 9 }] } ∧
      ∀ s ∈ [({ Name := "web", StartCommand := "/bin/sleep 60",
                             OnExit := "terminate", StopSignalStr := "SIGILL",
                             Stdout := "stdout", Stderr := "stderr",
                             CommandLine := ["/bin/sleep", "60"], StopSignal := 9 } : ServiceConfig)],
        s.Name ≠ "" ∧ (∃ name rest, s.CommandLine = name :: rest ∧ name ≠ "") ∧
          ∀ (service : Service) (env : StartEnv), service.config = s →
            ∃ r, service.Start env = .ok r :=
  ⟨rfl, parse_commandLine_in_range bsd everyPath sigillConfig _ rfl⟩

/-- What `Config.parse` does with `stop_signal`: in a configuration that it
accepts, `StopSignal` of a service is the entry of the signal table for a name
that the table holds. -/
theorem parse_stopSignal_in_table (sys : Syscall) (fs : PathEnv) (config config1 : Config)
    (h : parse sys fs config = .ok config1) :
    ∀ s ∈ config1.Services, ∃ name, (signals sys).lookup name = some s.StopSignal := by
  intro s1 hs1
  unfold parse at h
  split_ifs at h with h0
  split at h
  · exact absurd h (by simp)
  · rename_i services hl
    simp only [Except.ok.injEq] at h
    subst h
    obtain ⟨j, s, _, hp⟩ := parseLoop_ok sys fs _ _ _ hl s1 hs1
    exact ⟨_, (parseService_ok sys fs j s s1 hp).2.2.2.2⟩

/-! ## Theorems: the signal table and the outputs -/

/-- C9, at the stop signal `SIGILL`: `Config.parse` accepts the configuration and
sets `StopSignal` to the number of `SIGKILL`, whatever the numbers of the platform
are; on the BSD family that is 9, where `SIGILL` is 4. -/
theorem parse_SIGILL_stops_with_SIGKILL :
    (∀ sys : Syscall,
      parse sys everyPath sigillConfig =
        .ok { sigillConfig with
              Services := [{ Name := "web", StartCommand := "/bin/sleep 60",
                             OnExit := "terminate", StopSignalStr := "SIGILL",
                             Stdout := "stdout", Stderr := "stderr",
                             CommandLine := ["/bin/sleep", "60"],
                             StopSignal := sys.SIGKILL }] }) ∧
      bsd.SIGKILL = 9 ∧ bsd.SIGILL = 4 :=
  ⟨fun _ => rfl, rfl, rfl⟩

/-- C8, at a service whose standard output is `stderr` and whose standard error
is `stdout`: `Config.parse` accepts it, `getOutput` gives the inherited streams
for both settings, `Start` succeeds and leaves `os.Stderr` as `stdout` and
`os.Stdout` as `stderr` of the record, and `closeOutputs` on that record closes
both inherited streams. -/
theorem closeOutputs_closes_inherited_streams :
    parse bsd everyPath crossedConfig = .ok { crossedConfig with Services := [crossedService] } ∧
      (∀ env : OutputEnv, getOutput env crossedService.Stdout = .ok File.Stderr) ∧
      (∀ env : OutputEnv, getOutput env crossedService.Stderr = .ok File.Stdout) ∧
      (∃ service effs, (NewService crossedService).Start (launchOk 100 10) = .ok (service, effs, none) ∧
        service.stdout = some File.Stderr ∧ service.stderr = some File.Stdout ∧
        closeOutputs service = [File.Stderr, File.Stdout]) :=
  ⟨rfl, fun _ => rfl, fun _ => rfl, _, _, rfl, rfl, rfl, rfl⟩

/-! ## Theorems: `StartAll` -/

theorem Start_nil (s s1 : Service) (env : StartEnv) (effs : List Effect)
    (h : s.Start env = .ok (s1, effs, none)) :
    (∃ name argv wd files p,
        effs = [Effect.startProcess name argv wd files (some p)] ∧ s1.process = some p) ∧
      s1.config = s.config ∧ s1.restarts = s.restarts ∧ s1.stopped = s.stopped ∧
      s1.exitCode = s.exitCode := by
  unfold Service.Start at h
  simp only at h
  repeat' split at h
  all_goals simp only [Except.ok.injEq, Prod.mk.injEq, reduceCtorEq, and_false, false_and] at h
  obtain ⟨h1, h2, -⟩ := h
  subst h1 h2
  exact ⟨⟨_, _, _, _, _, rfl, rfl⟩, rfl, rfl, rfl, rfl⟩

theorem Start_error (s s1 : Service) (env : StartEnv) (effs : List Effect) (err : String)
    (h : s.Start env = .ok (s1, effs, some err)) :
    (∀ i, ∀ e ∈ effs, (Action.effect i e).launch = none) ∧
      s1.config = s.config ∧ s1.process = s.process ∧ s1.restarts = s.restarts ∧
      s1.stopped = s.stopped ∧ s1.exitCode = s.exitCode := by
  unfold Service.Start at h
  simp only at h
  repeat' split at h
  all_goals simp only [Except.ok.injEq, Prod.mk.injEq, reduceCtorEq, and_false, false_and] at h
  all_goals
    obtain ⟨h1, h2, -⟩ := h
    subst h1 h2
    refine ⟨?_, rfl, rfl, rfl, rfl, rfl⟩
    intro i e he
    simp only [List.mem_cons, List.mem_map, List.not_mem_nil] at he <;>
    first
      | (obtain ⟨f, -, he⟩ := he; subst he; rfl)
      | (rcases he with he | ⟨f, -, he⟩ <;> subst he <;> rfl)


theorem startSucceeds_iff (s : Service) (env : StartEnv) (h : startSucceeds s env = true) :
    ∃ s1 effs, s.Start env = .ok (s1, effs, none) := by
  unfold startSucceeds at h
  split at h
  · exact ⟨_, _, by assumption⟩
  · exact absurd h (by simp)

theorem startFails_iff (s : Service) (env : StartEnv) (h : startFails s env = true) :
    ∃ s1 effs err, s.Start env = .ok (s1, effs, some err) := by
  unfold startFails at h
  split at h
  · exact ⟨_, _, _, by assumption⟩
  · exact absurd h (by simp)

theorem launches_append (a b : List Action) : launches (a ++ b) = launches a ++ launches b := by
  simp [launches, List.filterMap_append]

theorem startCalls_append (a b : List Action) :
    startCalls (a ++ b) = startCalls a ++ startCalls b := by
  simp [startCalls, List.filterMap_append]

theorem launches_effects_error (i : Nat) (effs : List Effect)
    (h : ∀ e ∈ effs, (Action.effect i e).launch = none) :
    launches (effs.map (Action.effect i)) = [] := by
  induction effs with
  | nil => rfl
  | cons e effs ih =>
    have h0 := h e (List.mem_cons_self _ _)
    have h1 := ih (fun e he => h e (List.mem_cons_of_mem _ he))
    simp only [launches, List.map_cons, List.filterMap_cons, h0] at h1 ⊢
    exact h1

theorem startCalls_effects (i : Nat) (effs : List Effect) :
    startCalls (effs.map (Action.effect i)) = [] := by
  induction effs with
  | nil => rfl
  | cons e effs ih =>
    simp only [startCalls, List.map_cons, List.filterMap_cons] at ih ⊢
    exact ih

theorem service_effects (i : Nat) (effs : List Effect) :
    ∀ a ∈ effs.map (Action.effect i), a.service = some i := by
  intro a ha
  obtain ⟨e, -, he⟩ := List.mem_map.mp ha
  subst he
  rfl

theorem startLoop_all (envs : Nat → StartEnv) :
    ∀ (l : List Service) (i : Nat),
      (∀ k s, l[k]? = some s → startSucceeds s (envs (i + k)) = true) →
      ∃ l1 acts, startLoop envs i l = .ok (l1, acts, none) ∧
        launches acts = List.range' i l.length ∧ startCalls acts = List.range' i l.length ∧
        l1.length = l.length ∧ ∀ s ∈ l1, s.process ≠ none
  | [], i, _ => ⟨[], [], rfl, rfl, rfl, rfl, by simp⟩
  | s :: rest, i, h => by
    obtain ⟨s1, effs, hs⟩ := startSucceeds_iff s (envs i) (h 0 s (by simp))
    obtain ⟨⟨name, argv, wd, files, p, heffs, hp⟩, -⟩ := Start_nil s s1 (envs i) effs hs
    obtain ⟨l1, acts, hl, hla, hst, hlen, hproc⟩ := startLoop_all envs rest (i + 1) (by
      intro k sk hk
      have := h (k + 1) sk (by simpa using hk)
      rw [show i + 1 + k = i + (k + 1) by omega]
      exact this)
    refine ⟨s1 :: l1, Action.start i :: effs.map (Action.effect i) ++ acts, ?_, ?_, ?_, ?_, ?_⟩
    · simp only [startLoop, hs, hl]
    · subst heffs
      simp only [launches, List.map_cons, List.map_nil, List.cons_append, List.nil_append,
        List.filterMap_cons, Action.launch, List.length_cons, List.range'_succ] at hla ⊢
      rw [hla]
    · rw [show Action.start i :: List.map (Action.effect i) effs ++ acts
          = [Action.start i] ++ (List.map (Action.effect i) effs ++ acts) from rfl,
        startCalls_append, startCalls_append, startCalls_effects, hst]
      simp [startCalls, List.range'_succ]
    · simp [hlen]
    · intro x hx
      rcases List.mem_cons.mp hx with hx | hx
      · subst hx
        simp [hp]
      · exact hproc x hx

theorem startLoop_first_failure (envs : Nat → StartEnv) :
    ∀ (l : List Service) (i k : Nat) (s : Service), l[k]? = some s →
      startFails s (envs (i + k)) = true →
      (∀ j sj, j < k → l[j]? = some sj → startSucceeds sj (envs (i + j)) = true) →
      ∃ l1 acts err, startLoop envs i l = .ok (l1, acts, some err) ∧
        launches acts = List.range' i k ∧ startCalls acts = List.range' i (k + 1) ∧
        (∀ a ∈ acts, ∀ j, a.service = some j → j ≤ i + k) ∧
        l1.drop (k + 1) = l.drop (k + 1)
  | [], i, k, s, hk, _, _ => by simp at hk
  | s0 :: rest, i, 0, s, hk, hf, _ => by
    simp only [List.getElem?_cons_zero, Option.some.injEq] at hk
    subst hk
    obtain ⟨s1, effs, err, hs⟩ := startFails_iff s0 (envs i) (by simpa using hf)
    obtain ⟨hno, -⟩ := Start_error s0 s1 (envs i) effs err hs
    refine ⟨s1 :: rest, Action.start i :: effs.map (Action.effect i),
      "unable to start service " ++ s0.config.Name ++ ": '" ++ err ++ "'. Exitting",
      ?_, ?_, ?_, ?_, ?_⟩
    · simp only [startLoop, hs]
    · rw [show Action.start i :: List.map (Action.effect i) effs
          = [Action.start i] ++ List.map (Action.effect i) effs from rfl,
        launches_append, launches_effects_error i effs (hno i)]
      rfl
    · rw [show Action.start i :: List.map (Action.effect i) effs
          = [Action.start i] ++ List.map (Action.effect i) effs from rfl,
        startCalls_append, startCalls_effects]
      rfl
    · intro a ha j hj
      rcases List.mem_cons.mp ha with ha | ha
      · subst ha
        simp only [Action.service, Option.some.injEq] at hj
        omega
      · rw [service_effects i effs a ha] at hj
        simp only [Option.some.injEq] at hj
        omega
    · simp
  | s0 :: rest, i, k + 1, s, hk, hf, hok => by
    obtain ⟨s1, effs, hs⟩ := startSucceeds_iff s0 (envs i) (hok 0 s0 (by omega) (by simp))
    obtain ⟨⟨name, argv, wd, files, p, heffs, hp⟩, -⟩ := Start_nil s0 s1 (envs i) effs hs
    obtain ⟨l1, acts, err, hl, hla, hst, hsv, hdrop⟩ :=
      startLoop_first_failure envs rest (i + 1) k s (by simpa using hk)
        (by rw [show i + 1 + k = i + (k + 1) by omega]; exact hf)
        (by
          intro j sj hj hsj
          rw [show i + 1 + j = i + (j + 1) by omega]
          exact hok (j + 1) sj (by omega) (by simpa using hsj))
    refine ⟨s1 :: l1, Action.start i :: effs.map (Action.effect i) ++ acts, err, ?_, ?_, ?_, ?_, ?_⟩
    · simp only [startLoop, hs, hl]
    · subst heffs
      simp only [launches, List.map_cons, List.map_nil, List.cons_append, List.nil_append,
        List.filterMap_cons, Action.launch, List.range'_succ] at hla ⊢
      rw [hla]
    · rw [show Action.start i :: List.map (Action.effect i) effs ++ acts
          = [Action.start i] ++ (List.map (Action.effect i) effs ++ acts) from rfl,
        startCalls_append, startCalls_append, startCalls_effects, hst]
      simp [startCalls, List.range'_succ]
    · intro a ha j hj
      rcases List.mem_cons.mp ha with ha | ha
      · subst ha
        simp only [Action.service, Option.some.injEq] at hj
        omega
      · rcases List.mem_append.mp ha with ha | ha
        · rw [service_effects i effs a ha] at hj
          simp only [Option.some.injEq] at hj
          omega
        · have := hsv a ha j hj
          omega
    · simpa using hdrop


/-- C5: on a supervisor that is not started, `StartAll` calls `Start` in the
order of the list. When every call returns nil, `Start` was called once on every
service, one process was launched for every service, `started` is set and
`StartAll` returns nil. When the call on the service at index `k` is the first to
return an error, `StartAll` returns an error, `Start` was called on the services
up to `k` and on no other, a process was launched for the services before `k`
only, nothing was done for a service after `k`, whose records are as they were,
and `started` stays false. -/
theorem StartAll_first_call (sm : ServiceManager) (envs : Nat → StartEnv)
    (h : sm.started = false) :
    ((∀ k s, sm.services[k]? = some s → startSucceeds s (envs k) = true) →
      ∃ sm1 acts, StartAll sm envs = .ok (sm1, acts, none) ∧ sm1.started = true ∧
        startCalls acts = List.range sm.services.length ∧
        launches acts = List.range sm.services.length) ∧
    (∀ k s, sm.services[k]? = some s → startFails s (envs k) = true →
      (∀ j sj, j < k → sm.services[j]? = some sj → startSucceeds sj (envs j) = true) →
      ∃ sm1 acts err, StartAll sm envs = .ok (sm1, acts, some err) ∧ sm1.started = false ∧
        startCalls acts = List.range (k + 1) ∧ launches acts = List.range k ∧
        (∀ a ∈ acts, ∀ j, a.service = some j → j ≤ k) ∧
        sm1.services.drop (k + 1) = sm.services.drop (k + 1)) := by
  constructor
  · intro hall
    obtain ⟨l1, acts, hl, hla, hst, -, -⟩ := startLoop_all envs sm.services 0 (by
      intro k s hk
      rw [Nat.zero_add]
      exact hall k s hk)
    refine ⟨{ sm with services := l1, started := true }, acts, ?_, rfl, ?_, ?_⟩
    · simp only [StartAll, h, hl, Bool.false_eq_true, if_false]
    · rw [hst, List.range_eq_range']
    · rw [hla, List.range_eq_range']
  · intro k s hk hf hok
    obtain ⟨l1, acts, err, hl, hla, hst, hsv, hdrop⟩ :=
      startLoop_first_failure envs sm.services 0 k s hk (by rw [Nat.zero_add]; exact hf) (by
        intro j sj hj hsj
        rw [Nat.zero_add]
        exact hok j sj hj hsj)
    refine ⟨{ sm with services := l1 }, acts, err, ?_, h, ?_, ?_, ?_, hdrop⟩
    · simp only [StartAll, h, hl, Bool.false_eq_true, if_false]
    · rw [hst, List.range_eq_range']
    · rw [hla, List.range_eq_range']
    · intro a ha j hj
      have := hsv a ha j hj
      omega

/-- Two services: every launch succeeds, and only the first one does. -/
theorem StartAll_first_call_witness :
    twoServices.started = false ∧
      (∃ sm1 acts, StartAll twoServices allLaunch = .ok (sm1, acts, none) ∧ sm1.started = true ∧
        startCalls acts = List.range twoServices.services.length ∧
        launches acts = List.range twoServices.services.length) ∧
      (∃ sm1 acts err, StartAll twoServices onlyFirstLaunches = .ok (sm1, acts, some err) ∧
        sm1.started = false ∧ startCalls acts = List.range (1 + 1) ∧ launches acts = List.range 1 ∧
        (∀ a ∈ acts, ∀ j, a.service = some j → j ≤ 1) ∧
        sm1.services.drop (1 + 1) = twoServices.services.drop (1 + 1)) :=
  ⟨rfl,
    (StartAll_first_call twoServices allLaunch rfl).1 (by
      intro k s hk
      match k with
      | 0 => cases hk; rfl
      | 1 => cases hk; rfl
      | k + 2 => cases hk),
    (StartAll_first_call twoServices onlyFirstLaunches rfl).2 1
      (NewService (fileService "db" "terminate" 0)) rfl rfl (by
        intro j sj hj hsj
        match j with
        | 0 => cases hsj; rfl
        | j + 1 => omega)⟩

/-- C4 as stated fails: when the first `StartAll` returns an error after it
launched the service at index 0, the second `StartAll` returns nil and launches
the services at index 0 and 1. -/
theorem StartAll_twice_launches_again :
    ∃ sm1 acts1 err1 sm2 acts2,
      StartAll twoServices onlyFirstLaunches = .ok (sm1, acts1, some err1) ∧
        launches acts1 = [0] ∧
        StartAll sm1 allLaunch = .ok (sm2, acts2, none) ∧ launches acts2 = [0, 1] :=
  ⟨_, _, _, _, _, rfl, rfl, rfl, rfl⟩

/-- C4, amended: when the first `StartAll` returned nil, the second one returns
the error "already started", does nothing and leaves the supervisor as it was. -/
theorem StartAll_after_success (sm sm1 : ServiceManager) (envs1 envs2 : Nat → StartEnv)
    (acts1 : List Action) (h : StartAll sm envs1 = .ok (sm1, acts1, none)) :
    StartAll sm1 envs2 = .ok (sm1, [], some "already started") := by
  have hs : sm1.started = true := by
    unfold StartAll at h
    split_ifs at h
    · simp only [Except.ok.injEq, Prod.mk.injEq, reduceCtorEq, and_false] at h
    · split at h
      · exact absurd h (by simp)
      · simp only [Except.ok.injEq, Prod.mk.injEq, reduceCtorEq, and_false] at h
      · simp only [Except.ok.injEq, Prod.mk.injEq, and_true] at h
        rw [← h.1]
  simp only [StartAll, hs, if_true]

/-- Two services whose launches succeed, and a second `StartAll`. -/
theorem StartAll_after_success_witness :
    ∃ sm1 acts1, StartAll twoServices allLaunch = .ok (sm1, acts1, none) ∧
      StartAll sm1 onlyFirstLaunches = .ok (sm1, [], some "already started") :=
  ⟨_, _, rfl, StartAll_after_success twoServices _ allLaunch onlyFirstLaunches _ rfl⟩

/-! ## Theorems: `MainLoop` and `shutdown` -/

theorem signalLoop_ok (sd : ShutdownEnv) :
    ∀ (l : List Service) (i : Nat), (∀ s ∈ l, s.process ≠ none) →
      ∃ l1 acts, signalLoop sd i l = .ok (l1, acts)
  | [], _, _ => ⟨[], [], rfl⟩
  | s :: rest, i, h => by
    obtain ⟨l1, acts, hl⟩ := signalLoop_ok sd rest (i + 1)
      (fun x hx => h x (List.mem_cons_of_mem _ hx))
    obtain ⟨pid, hpid⟩ := Option.ne_none_iff_exists'.mp (h s (List.mem_cons_self _ _))
    unfold signalLoop
    by_cases hst : s.stopped = true
    · simp only [hst, if_true, hl]
      exact ⟨_, _, rfl⟩
    · simp only [hst, hpid, hl]
      cases sd.signalErr i <;> exact ⟨_, _, rfl⟩

theorem shutdown_ok (sm : ServiceManager) (sd : ShutdownEnv)
    (h : ∀ s ∈ sm.services, s.process ≠ none) :
    ∃ sm1 acts t, shutdown sm sd = .ok (sm1, Action.shutdown :: acts, t) := by
  obtain ⟨l1, acts, hl⟩ := signalLoop_ok sd sm.services 0 h
  unfold shutdown
  simp only [hl]
  exact ⟨_, _, _, rfl⟩

theorem findChild_process (pid code : Int) :
    ∀ (l l1 : List Service) (r : Option (Nat × Service)),
      findChild pid code l = .ok (r, l1) → l1.map (fun s => s.process) = l.map (fun s => s.process)
  | [], l1, r, h => by
    simp only [findChild, Except.ok.injEq, Prod.mk.injEq] at h
    rw [← h.2]
  | p :: rest, l1, r, h => by
    unfold findChild at h
    split at h
    · exact absurd h (by simp)
    · split_ifs at h
      · simp only [Except.ok.injEq, Prod.mk.injEq] at h
        rw [← h.2]
        rfl
      · split at h
        · exact absurd h (by simp)
        · rename_i r0 rest1 hrest
          simp only [Except.ok.injEq, Prod.mk.injEq] at h
          rw [← h.2]
          simp only [List.map_cons, findChild_process pid code rest rest1 r0 hrest]

theorem findChild_found (pid code : Int) :
    ∀ (l l1 : List Service) (i : Nat) (offender : Service),
      findChild pid code l = .ok (some (i, offender), l1) →
      ∃ p, l[i]? = some p ∧ offender = { p with stopped := true, exitCode := some code } ∧
        l1 = l.set i offender
  | [], l1, i, offender, h => by
    simp [findChild] at h
  | p :: rest, l1, i, offender, h => by
    unfold findChild at h
    split at h
    · exact absurd h (by simp)
    · split_ifs at h
      · simp only [Except.ok.injEq, Prod.mk.injEq, Option.some.injEq] at h
        obtain ⟨⟨hi, ho⟩, hl⟩ := h
        subst hi ho hl
        exact ⟨p, by simp, rfl, by simp⟩
      · split at h
        · exact absurd h (by simp)
        · rename_i r0 rest1 hrest
          simp only [Except.ok.injEq, Prod.mk.injEq] at h
          obtain ⟨hr, hl⟩ := h
          cases r0 with
          | none => simp at hr
          | some x =>
            obtain ⟨j, o⟩ := x
            simp only [Option.map_some', Option.some.injEq, Prod.mk.injEq] at hr
            obtain ⟨hi, ho⟩ := hr
            subst hi ho hl
            obtain ⟨q, hq, hoq, hset⟩ := findChild_found pid code rest rest1 j o hrest
            exact ⟨q, by simpa using hq, hoq, by simp [hset]⟩

theorem findTerminatedChild_found (sm sm1 : ServiceManager) (pid code : Int) (i : Nat)
    (offender : Service)
    (h : findTerminatedChild sm (.ok (pid, code)) = .ok (some (i, offender), sm1)) :
    (∃ p, sm.services[i]? = some p ∧
        offender = { p with stopped := true, exitCode := some code }) ∧
      sm1 = { sm with services := sm.services.set i offender } ∧
      sm1.services.map (fun s => s.process) = sm.services.map (fun s => s.process) := by
  unfold findTerminatedChild at h
  simp only at h
  split at h
  · exact absurd h (by simp)
  · rename_i r l1 hl
    simp only [Except.ok.injEq, Prod.mk.injEq] at h
    obtain ⟨hr, hsm⟩ := h
    subst hr hsm
    obtain ⟨p, hp, ho, hset⟩ := findChild_found pid code _ _ _ _ hl
    refine ⟨⟨p, hp, ho⟩, by rw [hset], ?_⟩
    exact findChild_process pid code _ _ _ hl

theorem process_of_map (l l1 : List Service)
    (hmap : l1.map (fun s => s.process) = l.map (fun s => s.process))
    (h : ∀ s ∈ l, s.process ≠ none) : ∀ s ∈ l1, s.process ≠ none := by
  intro s hs
  have : s.process ∈ l1.map (fun s => s.process) := List.mem_map.mpr ⟨s, hs, rfl⟩
  rw [hmap] at this
  obtain ⟨x, hx, hxs⟩ := List.mem_map.mp this
  rw [← hxs]
  exact h x hx


/-- C1: in a started supervisor whose services all have a process, let the
event be the death of a child that `findTerminatedChild` finds, with the exit
code `code` and the policy `terminate_if_error`. When `code` is 0, the iteration
does nothing and `MainLoop` goes on with the events that follow, from the
supervisor as `findTerminatedChild` left it. When `code` is not 0, `MainLoop`
calls `shutdown` and returns `code`. -/
theorem MainLoop_terminate_if_error (sm sm1 : ServiceManager) (pid code : Int) (i : Nat)
    (offender : Service) (st : StartEnv) (sd : ShutdownEnv) (rest : List Event)
    (hstarted : sm.started = true) (hlaunched : ∀ s ∈ sm.services, s.process ≠ none)
    (hfind : findTerminatedChild sm (.ok (pid, code)) = .ok (some (i, offender), sm1))
    (hpolicy : offender.config.OnExit = OnExitTerminateIfError) :
    (code = 0 →
      MainLoop sm (Event.child (.ok (pid, code)) st sd :: rest) = MainLoop sm1 rest) ∧
    (code ≠ 0 →
      ∃ sm2 acts t, shutdown sm1 sd = .ok (sm2, Action.shutdown :: acts, t) ∧
        MainLoop sm (Event.child (.ok (pid, code)) st sd :: rest)
          = .ok (sm2, Action.shutdown :: acts, some code)) := by
  obtain ⟨⟨p, -, ho⟩, hsm1, hmap⟩ := findTerminatedChild_found sm sm1 pid code i offender hfind
  have hexit : offender.exitCode = some code := by rw [ho]
  have hstarted1 : sm1.started = true := by rw [hsm1]; exact hstarted
  constructor
  · intro hc
    subst hc
    simp only [MainLoop, hstarted, hstarted1, eventLoop, childCase, hfind, hexit, hpolicy,
      if_true, Bool.not_true, Bool.false_eq_true, if_false]
    cases eventLoop sm1 rest with
    | error f => rfl
    | ok r => rfl
  · intro hc
    obtain ⟨sm2, acts, t, hsd⟩ := shutdown_ok sm1 sd (process_of_map _ _ hmap hlaunched)
    refine ⟨sm2, acts, t, hsd, ?_⟩
    simp only [MainLoop, hstarted, eventLoop, childCase, hfind, hexit, hpolicy, hc, hsd,
      if_true, Bool.not_true, Bool.false_eq_true, if_false]

/-- C2: in a started supervisor whose services all have a process, let the
event be the death of a child that `findTerminatedChild` finds, with the exit
code `code` and the policy `terminate`. Whatever `code` is, `MainLoop` calls
`shutdown` and returns `code`. -/
theorem MainLoop_terminate (sm sm1 : ServiceManager) (pid code : Int) (i : Nat)
    (offender : Service) (st : StartEnv) (sd : ShutdownEnv) (rest : List Event)
    (hstarted : sm.started = true) (hlaunched : ∀ s ∈ sm.services, s.process ≠ none)
    (hfind : findTerminatedChild sm (.ok (pid, code)) = .ok (some (i, offender), sm1))
    (hpolicy : offender.config.OnExit = OnExitTerminate) :
    ∃ sm2 acts t, shutdown sm1 sd = .ok (sm2, Action.shutdown :: acts, t) ∧
      MainLoop sm (Event.child (.ok (pid, code)) st sd :: rest)
        = .ok (sm2, Action.shutdown :: acts, some code) := by
  obtain ⟨⟨p, -, ho⟩, hsm1, hmap⟩ := findTerminatedChild_found sm sm1 pid code i offender hfind
  have hexit : offender.exitCode = some code := by rw [ho]
  obtain ⟨sm2, acts, t, hsd⟩ := shutdown_ok sm1 sd (process_of_map _ _ hmap hlaunched)
  refine ⟨sm2, acts, t, hsd, ?_⟩
  have h1 : ¬ (OnExitTerminate = OnExitTerminateIfError) := by decide
  have h2 : ¬ (OnExitTerminate = OnExitRestart) := by decide
  simp only [MainLoop, hstarted, eventLoop, childCase, restartBlock, hfind, hexit, hpolicy, hsd,
    h1, h2, if_true, Bool.not_true, Bool.false_eq_true, if_false, List.nil_append]


theorem Start_restarts (s : Service) (x : Nat) (env : StartEnv) :
    ({ s with restarts := x } : Service).Start env =
      match s.Start env with
      | .ok (s1, effs, e) => .ok ({ s1 with restarts := x }, effs, e)
      | .error f => .error f := by
  unfold Service.Start
  simp only []
  cases (if s.config.WorkDirectory = "" then env.getwd else Except.ok s.config.WorkDirectory)
    <;> cases getOutput env.stdoutFs s.config.Stdout
    <;> cases getOutput env.stderrFs s.config.Stderr
    <;> cases s.config.CommandLine
    <;> cases env.startProcess
    <;> simp [closeOutputs]


theorem uintSub_le (m r : Nat) (hr : r ≤ m) (hm : m < uintModulus) : uintSub m r = m - r := by
  have h64 : uintModulus = 18446744073709551616 := by norm_num [uintModulus]
  rw [h64] at hm
  unfold uintSub
  rw [h64]
  omega

theorem restart_step (sm sm1 : ServiceManager) (pid code : Int) (i : Nat) (offender : Service)
    (st : StartEnv) (sd : ShutdownEnv) (s : Service)
    (hs : sm.services[i]? = some s)
    (hfind : findTerminatedChild sm (.ok (pid, code)) = .ok (some (i, offender), sm1))
    (hpol : s.config.OnExit = OnExitRestart) (hr : s.restarts ≤ s.config.MaxRestarts)
    (hm : s.config.MaxRestarts < uintModulus) (hstart : startSucceeds offender st = true) :
    ∃ sm2 acts s2, childCase sm (.ok (pid, code)) st sd = .ok (Step.next sm2, acts) ∧
      sm2.services[i]? = some s2 ∧ s2.config = s.config ∧
      s2.restarts = min (s.restarts + 1) s.config.MaxRestarts ∧
      startCalls acts = List.replicate (min (s.restarts + 1) s.config.MaxRestarts - s.restarts) i ∧
      launches acts = List.replicate (min (s.restarts + 1) s.config.MaxRestarts - s.restarts) i := by
  obtain ⟨⟨p, hp, ho⟩, hsm1, -⟩ := findTerminatedChild_found sm sm1 pid code i offender hfind
  rw [hs] at hp
  simp only [Option.some.injEq] at hp
  subst hp
  have hilt : i < sm.services.length := by
    by_contra hcon
    rw [List.getElem?_eq_none (by omega)] at hs
    exact absurd hs (by simp)
  have hexit : offender.exitCode = some code := by rw [ho]
  have hcfg : offender.config = s.config := by rw [ho]
  have hres : offender.restarts = s.restarts := by rw [ho]
  have h1 : ¬ (OnExitRestart = OnExitTerminateIfError) := by decide
  have h2 : ¬ (OnExitRestart = OnExitTerminate) := by decide
  have hsub := uintSub_le s.config.MaxRestarts s.restarts hr hm
  by_cases hlt : s.restarts < s.config.MaxRestarts
  · obtain ⟨s1, effs, hst⟩ := startSucceeds_iff offender st hstart
    obtain ⟨⟨name, argv, wd, files, q, heffs, -⟩, hc1, -⟩ := Start_nil offender s1 st effs hst
    have hmod : (s.restarts + 1) % uintModulus = s.restarts + 1 := by
      apply Nat.mod_eq_of_lt
      omega
    have hpos : uintSub s.config.MaxRestarts s.restarts > 0 := by omega
    have hst2 := Start_restarts offender (s.restarts + 1) st
    rw [hst] at hst2
    simp only [hexit, hcfg, hc1] at hst2
    refine ⟨{ sm1 with services := sm1.services.set i { s1 with restarts := s.restarts + 1 } },
      Action.start i :: effs.map (Action.effect i), { s1 with restarts := s.restarts + 1 },
      ?_, ?_, ?_, ?_, ?_, ?_⟩
    · simp only [childCase, restartBlock, hfind, hexit, hcfg, hres, hpol, h1, h2, hpos, hmod,
        hst2, hc1, if_true, if_false]
    · rw [hsm1]
      simp [hilt]
    · simp only [hc1, hcfg]
    · simp only
      omega
    · subst heffs
      rw [show min (s.restarts + 1) s.config.MaxRestarts - s.restarts = 1 by omega]
      rfl
    · subst heffs
      rw [show min (s.restarts + 1) s.config.MaxRestarts - s.restarts = 1 by omega]
      rfl
  · have hzero : ¬ (uintSub s.config.MaxRestarts s.restarts > 0) := by omega
    refine ⟨sm1, [], offender, ?_, ?_, hcfg, ?_, ?_, ?_⟩
    · simp only [childCase, restartBlock, hfind, hexit, hcfg, hres, hpol, h1, h2, hzero,
        if_true, if_false]
    · rw [hsm1]
      simp [hilt]
    · rw [hres]
      omega
    · rw [show min (s.restarts + 1) s.config.MaxRestarts - s.restarts = 0 by omega]
      rfl
    · rw [show min (s.restarts + 1) s.config.MaxRestarts - s.restarts = 0 by omega]
      rfl


theorem deathsOf_cons (i : Nat) (sm : ServiceManager) (ev : Event) (rest : List Event)
    (h : deathsOf i sm (ev :: rest) = true) :
    ∃ pid code st sd offender sm1, ev = Event.child (.ok (pid, code)) st sd ∧
      findTerminatedChild sm (.ok (pid, code)) = .ok (some (i, offender), sm1) ∧
      startSucceeds offender st = true ∧
      ∀ sm2 acts, childCase sm (.ok (pid, code)) st sd = .ok (Step.next sm2, acts) →
        deathsOf i sm2 rest = true := by
  cases ev with
  | quit sig sd => simp [deathsOf] at h
  | child wait4 st sd =>
    cases wait4 with
    | error e => simp [deathsOf, findTerminatedChild] at h
    | ok pc =>
      obtain ⟨pid, code⟩ := pc
      unfold deathsOf at h
      split at h
      · rename_i j offender sm1 hfind
        simp only [Bool.and_eq_true, beq_iff_eq] at h
        obtain ⟨⟨hj, hst⟩, hrest⟩ := h
        subst hj
        refine ⟨pid, code, st, sd, offender, sm1, rfl, hfind, hst, ?_⟩
        intro sm2 acts hcc
        rw [hcc] at hrest
        exact hrest
      · exact absurd h (by simp)

theorem restart_run (i : Nat) :
    ∀ (evs : List Event) (sm : ServiceManager) (s : Service), sm.services[i]? = some s →
      s.config.OnExit = OnExitRestart → s.restarts ≤ s.config.MaxRestarts →
      s.config.MaxRestarts < uintModulus → deathsOf i sm evs = true →
      ∃ sm1 acts s1, eventLoop sm evs = .ok (sm1, acts, none) ∧
        sm1.services[i]? = some s1 ∧ s1.config = s.config ∧
        s1.restarts = min (s.restarts + evs.length) s.config.MaxRestarts ∧
        startCalls acts =
          List.replicate (min (s.restarts + evs.length) s.config.MaxRestarts - s.restarts) i ∧
        launches acts =
          List.replicate (min (s.restarts + evs.length) s.config.MaxRestarts - s.restarts) i
  | [], sm, s, hs, _, hr, _, _ => by
    refine ⟨sm, [], s, rfl, hs, rfl, ?_, ?_, ?_⟩
    · simp only [List.length_nil, Nat.add_zero]
      omega
    · rw [show min (s.restarts + ([] : List Event).length) s.config.MaxRestarts - s.restarts = 0
        by simp only [List.length_nil, Nat.add_zero]; omega]
      rfl
    · rw [show min (s.restarts + ([] : List Event).length) s.config.MaxRestarts - s.restarts = 0
        by simp only [List.length_nil, Nat.add_zero]; omega]
      rfl
  | ev :: rest, sm, s, hs, hpol, hr, hm, hev => by
    obtain ⟨pid, code, st, sd, offender, sm1, hev1, hfind, hst, hnext⟩ :=
      deathsOf_cons i sm ev rest hev
    subst hev1
    obtain ⟨sm2, acts, s2, hcc, hs2, hc2, hr2, hcalls, hlaunch⟩ :=
      restart_step sm sm1 pid code i offender st sd s hs hfind hpol hr hm hst
    obtain ⟨sm3, acts3, s3, hloop, hs3, hc3, hr3, hcalls3, hlaunch3⟩ :=
      restart_run i rest sm2 s2 hs2 (by rw [hc2]; exact hpol) (by rw [hc2, hr2]; omega)
        (by rw [hc2]; exact hm) (hnext sm2 acts hcc)
    rw [hc2, hr2] at hr3 hcalls3 hlaunch3
    refine ⟨sm3, acts ++ acts3, s3, ?_, hs3, by rw [hc3, hc2], ?_, ?_, ?_⟩
    · simp only [eventLoop, hcc, hloop]
    · rw [hr3]
      simp only [List.length_cons]
      omega
    · rw [startCalls_append, hcalls, hcalls3, List.append_replicate_replicate]
      congr 1
      simp only [List.length_cons]
      omega
    · rw [launches_append, hlaunch, hlaunch3, List.append_replicate_replicate]
      congr 1
      simp only [List.length_cons]
      omega

theorem deathsOf_take (i : Nat) :
    ∀ (evs : List Event) (sm : ServiceManager) (n : Nat), deathsOf i sm evs = true →
      deathsOf i sm (evs.take n) = true
  | [], _, n, _ => by simp [deathsOf]
  | ev :: rest, sm, 0, _ => by simp [deathsOf]
  | ev :: rest, sm, n + 1, h => by
    have h0 := h
    cases ev with
    | quit sig sd => simp [deathsOf] at h
    | child wait4 st sd =>
      simp only [List.take_succ_cons]
      unfold deathsOf at h ⊢
      split
      · rename_i j offender sm1 hfind
        rw [hfind] at h
        simp only [Bool.and_eq_true] at h ⊢
        refine ⟨h.1, ?_⟩
        have h2 := h.2
        split
        · rename_i sm2 acts hcc
          rw [hcc] at h2
          exact deathsOf_take i rest sm2 n h2
        · rfl
      · rename_i hnot
        split at h
        · rename_i j offender sm1 hfind
          exact absurd hfind (hnot j offender sm1)
        · exact h

/-- C3: let the service at index `i` have the policy `restart`, the budget
`MaxRestarts = m` and `restarts = 0`, and let the events be deaths of that service
in an outside where a relaunch succeeds. After the first `n` deaths `MainLoop` has
not returned, `Start` was called `min n m` times, every time on that service, as
many processes were launched, `restarts` is `min n m`, and the subtraction
`MaxRestarts - restarts` of the next death is the difference of the numbers: the
service is relaunched at each of the first `m` deaths and at no later one. -/
theorem MainLoop_restart_budget (sm : ServiceManager) (i m n : Nat) (s : Service)
    (evs : List Event) (hstarted : sm.started = true) (hs : sm.services[i]? = some s)
    (hpol : s.config.OnExit = OnExitRestart) (hm : s.config.MaxRestarts = m)
    (hlt : m < uintModulus) (hr : s.restarts = 0) (hev : deathsOf i sm evs = true)
    (hn : n ≤ evs.length) :
    ∃ sm1 acts s1, MainLoop sm (evs.take n) = .ok (sm1, acts, none) ∧
      sm1.services[i]? = some s1 ∧ s1.restarts = min n m ∧
      startCalls acts = List.replicate (min n m) i ∧
      launches acts = List.replicate (min n m) i ∧
      uintSub s1.config.MaxRestarts s1.restarts = m - min n m := by
  obtain ⟨sm1, acts, s1, hloop, hs1, hc1, hr1, hcalls, hlaunch⟩ :=
    restart_run i (evs.take n) sm s hs hpol (by omega) (by omega) (deathsOf_take i evs sm n hev)
  have hlen : (evs.take n).length = n := by simp [hn]
  rw [hlen, hm, hr, Nat.zero_add] at hr1 hcalls hlaunch
  simp only [Nat.sub_zero] at hcalls hlaunch
  refine ⟨sm1, acts, s1, ?_, hs1, hr1, hcalls, hlaunch, ?_⟩
  · simp only [MainLoop, hstarted, Bool.not_true, Bool.false_eq_true, if_false, hloop]
  · rw [hc1, hm, hr1]
    exact uintSub_le m (min n m) (by omega) hlt

/-- A budget of 2 restarts and three deaths: two relaunches. -/
theorem MainLoop_restart_budget_witness :
    ∃ sm1 acts s1, MainLoop (running "restart" 2) (threeDeaths.take 3) = .ok (sm1, acts, none) ∧
      sm1.services[0]? = some s1 ∧ s1.restarts = min 3 2 ∧
      startCalls acts = List.replicate (min 3 2) 0 ∧
      launches acts = List.replicate (min 3 2) 0 ∧
      uintSub s1.config.MaxRestarts s1.restarts = 2 - min 3 2 :=
  MainLoop_restart_budget (running "restart" 2) 0 2 3
    { process := some 200, stdout := some (File.opened 10), stderr := some File.Stderr,
      config := fileService "web" "restart" 2 }
    threeDeaths rfl (by decide) rfl rfl (by decide) rfl rfl (by decide)

/-- The first of two services exits with 0, and with 3. -/
theorem MainLoop_terminate_if_error_witness :
    (∀ s ∈ (running "terminate_if_error" 0).services, s.process ≠ none) ∧
      ((0 : Int) = 0 →
        MainLoop (running "terminate_if_error" 0) [death 200 0 300, death 201 0 301]
          = MainLoop
              { running "terminate_if_error" 0 with
                services := (running "terminate_if_error" 0).services.set 0
                  { process := some 200, exitCode := some 0, stopped := true,
                    stdout := some (File.opened 10), stderr := some File.Stderr,
                    config := fileService "web" "terminate_if_error" 0 } }
              [death 201 0 301]) ∧
      ((3 : Int) ≠ 0 →
        ∃ sm2 acts t,
          shutdown
              { running "terminate_if_error" 0 with
                services := (running "terminate_if_error" 0).services.set 0
                  { process := some 200, exitCode := some 3, stopped := true,
                    stdout := some (File.opened 10), stderr := some File.Stderr,
                    config := fileService "web" "terminate_if_error" 0 } }
              (exitsAfter 1000000000)
            = .ok (sm2, Action.shutdown :: acts, t) ∧
          MainLoop (running "terminate_if_error" 0) [death 200 3 300, death 201 0 301]
            = .ok (sm2, Action.shutdown :: acts, some 3)) :=
  ⟨by decide,
    (MainLoop_terminate_if_error (running "terminate_if_error" 0) _ 200 0 0 _ (launchOk 300 20)
      (exitsAfter 1000000000) [death 201 0 301] rfl (by decide) rfl rfl).1,
    (MainLoop_terminate_if_error (running "terminate_if_error" 0) _ 200 3 0 _ (launchOk 300 20)
      (exitsAfter 1000000000) [death 201 0 301] rfl (by decide) rfl rfl).2⟩

/-- The first of two services exits with 7. -/
theorem MainLoop_terminate_witness :
    (∀ s ∈ (running "terminate" 0).services, s.process ≠ none) ∧
      ∃ sm2 acts t,
        shutdown
            { running "terminate" 0 with
              services := (running "terminate" 0).services.set 0
                { process := some 200, exitCode := some 7, stopped := true,
                  stdout := some (File.opened 10), stderr := some File.Stderr,
                  config := fileService "web" "terminate" 0 } }
            (exitsAfter 1000000000)
          = .ok (sm2, Action.shutdown :: acts, t) ∧
        MainLoop (running "terminate" 0) [death 200 7 300]
          = .ok (sm2, Action.shutdown :: acts, some 7) :=
  ⟨by decide,
    MainLoop_terminate (running "terminate" 0) _ 200 7 0 _ (launchOk 300 20)
      (exitsAfter 1000000000) [] rfl (by decide) rfl rfl⟩

/-- C6, at a timeout of 3 seconds and two services that are waited on. When
the first exits after 2 seconds and the second never, `shutdown` returns 5 seconds
after the wait loop began: the timer started anew when the first notification was
received. When the second exits after 4 seconds, `shutdown` returns after 4
seconds. -/
theorem shutdown_restarts_its_timer :
    (running "terminate" 0).config.ShutdownTimeoutSec = 3 ∧
      (∃ sm1 acts, shutdown (running "terminate" 0) firstExitsOnly = .ok (sm1, acts, 5000000000)) ∧
      (∃ sm1 acts, shutdown (running "terminate" 0) exitInTurn = .ok (sm1, acts, 4000000000)) :=
  ⟨rfl, ⟨_, _, rfl⟩, ⟨_, _, rfl⟩⟩

/-- C7, at two services whose standard output is a file. When both exit one
second after the wait loop began, `shutdown` returns without a call of `Close`,
and both records are still not stopped. When only the first exits and the timeout
case ends the loop, the file of the first is closed. -/
theorem shutdown_leaves_outputs_open :
    (∃ sm1 acts, shutdown (running "terminate" 0) (exitsAfter 1000000000)
          = .ok (sm1, acts, 1000000000) ∧
        closes acts = [] ∧
        sm1.services.map (fun s => (s.stopped, s.exitCode, s.stdout))
          = [(false, some 0, some (File.opened 10)), (false, some 0, some (File.opened 12))]) ∧
      (∃ sm1 acts, shutdown (running "terminate" 0) firstExitsOnly = .ok (sm1, acts, 5000000000) ∧
        closes acts = [File.opened 10]) :=
  ⟨⟨_, _, rfl, rfl, rfl⟩, ⟨_, _, rfl, rfl⟩⟩

/-! ## Theorems: a relaunched service at `shutdown` -/

theorem Start_keeps_stopped (s s1 : Service) (env : StartEnv) (effs : List Effect)
    (e : Option String) (h : s.Start env = .ok (s1, effs, e)) : s1.stopped = s.stopped := by
  cases e with
  | none => exact (Start_nil s s1 env effs h).2.2.2.1
  | some err => exact (Start_error s s1 env effs err h).2.2.2.2.1

/-- C11, at a service with the policy `restart` and a budget of 2 whose process
200 dies: `MainLoop` relaunches it as the process 300 and goes on, and the record
is still stopped, as `findTerminatedChild` marked it, so it is not in the list of
the services that `shutdown` waits on. When an interrupt arrives then, `MainLoop`
returns 0 and `shutdown` has sent a signal to the other service only: the
process 300 is not signalled. -/
theorem shutdown_skips_relaunched_service :
    (∃ sm1 acts, MainLoop (running "restart" 2) [death 200 1 300] = .ok (sm1, acts, none) ∧
        launches acts = [0] ∧
        sm1.services.map (fun s => (s.process, s.stopped)) = [(some 300, true), (some 201, false)] ∧
        waitList 0 sm1.services = [1]) ∧
      (∃ sm2 acts, MainLoop (running "restart" 2) relaunchThenQuit = .ok (sm2, acts, some 0) ∧
        launches acts = [0] ∧ signalled acts = [(1, 201, 15)] ∧
        sm2.services.map (fun s => (s.process, s.stopped)) = [(some 300, true), (some 201, false)]) :=
  ⟨⟨_, _, rfl, rfl, rfl, rfl⟩, ⟨_, _, rfl, rfl, rfl, rfl⟩⟩

end Csm
